import Mathlib

/-
Verification of the SNES-style rendering engine (tile atlas, tile grid,
layer compositor, collision resolution).  The definitions below are a
shallow embedding of the Python source, principally `5.8.testhdr.py`,
which is the variant implementing the documented bounds checks and
fallbacks (the earlier `1.py` / `2.py` variants omit them).  Pygame
surfaces are modelled by their value content (dimensions plus a pixel
function); printing a warning to stderr is modelled as a Boolean flag in
the return value; `pygame.Surface.convert_alpha` is a pixel-format
conversion and is the identity on the value level.
-/

/-! ### Surfaces -/

/-- An RGBA pixel value. -/
abbrev Pixel := Nat × Nat × Nat × Nat

/-- Value view of a `pygame.Surface`: dimensions plus pixel contents. -/
structure Surface where
  width : Nat
  height : Nat
  pixel : Nat → Nat → Pixel

/-- `surface.subsurface((tx, ty, w, h))`: a rectangular view into a parent
surface whose pixel `(i, j)` is the parent pixel `(tx + i, ty + j)`. -/
def Surface.subsurface (s : Surface) (tx ty w h : Nat) : Surface :=
  { width := w, height := h, pixel := fun i j => s.pixel (tx + i) (ty + j) }

/-! ### TileSet (spec: TileAtlas), from `5.8.testhdr.py` lines 38-76 -/

structure TileSet where
  tiles : List Surface
  tile_size_px : Nat

/-- `TileSet.__init__` (lines 43-58): `num_tiles_x = w // tile_size`,
`num_tiles_y = h // tile_size`, then for `ty_idx` in `range(num_tiles_y)`,
for `tx_idx` in `range(num_tiles_x)`, append the subsurface at
`(tx_idx * tile_size, ty_idx * tile_size)` of size
`tile_size × tile_size`.  The nested loops appear here as a `flatMap`
over the outer range of a `map` over the inner range, which appends the
same elements in the same (row-major) order. -/
def TileSet.load (surface : Surface) (tile_size : Nat) : TileSet :=
  let num_tiles_x := surface.width / tile_size
  let num_tiles_y := surface.height / tile_size
  { tiles :=
      (List.range num_tiles_y).flatMap (fun ty_idx =>
        (List.range num_tiles_x).map (fun tx_idx =>
          surface.subsurface (tx_idx * tile_size) (ty_idx * tile_size) tile_size tile_size)),
    tile_size_px := tile_size }

/-- The dummy tile built by `TileSet.get` when the tileset is empty
(lines 64-66): a `tile_size_px × tile_size_px` surface filled with the
fully transparent pixel `(0, 0, 0, 0)`. -/
def dummyTile (n : Nat) : Surface :=
  { width := n, height := n, pixel := fun _ _ => (0, 0, 0, 0) }

/-- `TileSet.get` (lines 60-73): if `self.tiles` is empty return a fully
transparent dummy tile; if `0 <= index < len(self.tiles)` return
`self.tiles[index]`; otherwise return `self.tiles[0]`.  The `getD`
defaults are unreachable: in the second branch `index.toNat` is in
range, and in the third the list is nonempty. -/
def TileSet.get (t : TileSet) (index : Int) : Surface :=
  if t.tiles.isEmpty then
    dummyTile t.tile_size_px
  else if 0 ≤ index ∧ index < (t.tiles.length : Int) then
    t.tiles.getD index.toNat (dummyTile t.tile_size_px)
  else
    t.tiles.getD 0 (dummyTile t.tile_size_px)

/-! ### TileMap (spec: TileGrid), from `5.8.testhdr.py` lines 79-102 -/

/-- `TileMap` holds its dimensions (tile units) and the 2-D array
`map_data` of tile indices (`map_data[y][x]`).  The `priority` and
`tileset` fields play no role in the verified operations and are
omitted. -/
structure TileMap where
  width : Nat
  height : Nat
  map_data : List (List Int)
deriving DecidableEq

/-- `TileMap.__init__` (lines 84-89): `map_data` is filled with tile 0,
`height` rows of `width` zeros each. -/
def TileMap.init (width height : Nat) : TileMap :=
  { width := width, height := height,
    map_data := List.replicate height (List.replicate width 0) }

/-- `TileMap.set_tile` (lines 91-95): if `0 <= y < self.height and
0 <= x < self.width` overwrite `map_data[y][x]`, else print a warning to
stderr and leave the map untouched.  The returned Boolean is `true`
exactly when the out-of-bounds warning is emitted. -/
def TileMap.set_tile (tm : TileMap) (x y index : Int) : TileMap × Bool :=
  if 0 ≤ y ∧ y < (tm.height : Int) ∧ 0 ≤ x ∧ x < (tm.width : Int) then
    ({ tm with map_data :=
        tm.map_data.set y.toNat ((tm.map_data.getD y.toNat []).set x.toNat index) },
     false)
  else
    (tm, true)

/-- `TileMap.get_tile_index` (lines 98-102): returns `map_data[y][x]` in
bounds, `-1` out of bounds. -/
def TileMap.get_tile_index (tm : TileMap) (x y : Int) : Int :=
  if 0 ≤ y ∧ y < (tm.height : Int) ∧ 0 ≤ x ∧ x < (tm.width : Int) then
    (tm.map_data.getD y.toNat []).getD x.toNat 0
  else
    -1

/-! ### Collision resolution and clamping, from `update_game_state`
(`5.8.testhdr.py` lines 270-345) -/

/-- `TILE_WALL` (line 205): the only blocking tile index. -/
def TILE_WALL : Int := 1

/-- One corner sample of the collision loops (lines 297-309, 323-326,
334-337): map the pixel coordinate to a tile coordinate by floor
division (Python `//`, hence `Int.fdiv`), treat an off-grid tile
coordinate as a hit, otherwise hit exactly when the cell holds
`TILE_WALL`. -/
def cornerHits (tm : TileMap) (tile_size : Nat) (px py : Int) : Bool :=
  let tile_x := px.fdiv (tile_size : Int)
  let tile_y := py.fdiv (tile_size : Int)
  if 0 ≤ tile_x ∧ tile_x < (tm.width : Int) ∧ 0 ≤ tile_y ∧ tile_y < (tm.height : Int) then
    tm.get_tile_index tile_x tile_y == TILE_WALL
  else
    true

/-- The four corners sampled from a rect at `(x, y)` of size `w × h`
(lines 289-294): top-left, top-right, bottom-left, bottom-right, with
the inclusive-pixel convention `right - 1` / `bottom - 1`. -/
def corners (x y w h : Int) : List (Int × Int) :=
  [(x, y), (x + w - 1, y), (x, y + h - 1), (x + w - 1, y + h - 1)]

/-- A bounding box collides when any of its four corners hits (the
`for ... break` loops of lines 296-309 and the per-axis variants). -/
def collidesAt (tm : TileMap) (tile_size : Nat) (x y w h : Int) : Bool :=
  (corners x y w h).any (fun c => cornerHits tm tile_size c.1 c.2)

/-- The collision-resolution step of `update_game_state`
(lines 284-338), from the pre-move position `(prev_x, prev_y)` and the
fully proposed position `(prop_x, prop_y)`.  Faithful to the source: on
any corner hit, lines 312-313 first revert BOTH coordinates to the
previous values; the later X-axis test (lines 319-327) then reads the
already-reverted `player_sprite.x`, and the Y-axis test (lines 330-338)
reads the already-reverted `player_sprite.y`. -/
def resolveCollision (tm : TileMap) (tile_size : Nat)
    (w h prev_x prev_y prop_x prop_y : Int) : Int × Int :=
  if collidesAt tm tile_size prop_x prop_y w h then
    let x0 := prev_x
    let y0 := prev_y
    let collided_x := collidesAt tm tile_size x0 prev_y w h
    let x1 := if collided_x then prev_x else x0
    let collided_y := collidesAt tm tile_size prev_x y0 w h
    let y1 := if collided_y then prev_y else y0
    (x1, y1)
  else
    (prop_x, prop_y)

/-- Screen-boundary clamping (lines 341-345):
`x = max(0, min(x, logical_width - width))` and symmetrically for `y`. -/
def clampToScreen (logical_width logical_height w h x y : Int) : Int × Int :=
  (max 0 (min x (logical_width - w)), max 0 (min y (logical_height - h)))

/-- One full tick of `update_game_state` after the key-driven proposal:
collision resolution followed by screen clamping.  The renderer is
constructed (line 265) with logical dimensions
`map_width * TILE_SIZE × map_height * TILE_SIZE`, which is what the
clamping step reads. -/
def updateTick (tm : TileMap) (tile_size : Nat)
    (w h prev_x prev_y prop_x prop_y : Int) : Int × Int :=
  let c := resolveCollision tm tile_size w h prev_x prev_y prop_x prop_y
  clampToScreen ((tm.width * tile_size : Nat) : Int) ((tm.height * tile_size : Nat) : Int)
    w h c.1 c.2

/-! ### Renderer layers (spec: Compositor), from `5.8.testhdr.py`
lines 147-166 -/

/-- A candidate layer object, as `add_layer` sees it: `oid` tags the
object identity (its insertion order, used only to state stability);
`hasDraw` / `hasPriority` model `hasattr(layer, "draw")` /
`hasattr(layer, "priority")`; `priority` is the value of the attribute
when present. -/
structure LayerObj where
  oid : Nat
  hasDraw : Bool
  hasPriority : Bool
  priority : Int
deriving DecidableEq

/-- The sort key `getattr(l, "priority", 0)` of line 166. -/
def sortKey (l : LayerObj) : Int := if l.hasPriority then l.priority else 0

/-- The comparison underlying `list.sort(key=sortKey)`. -/
def layerLE (a b : LayerObj) : Prop := sortKey a ≤ sortKey b

instance : DecidableRel layerLE :=
  fun a b => inferInstanceAs (Decidable (sortKey a ≤ sortKey b))

/-- `SNESRenderer.add_layer` (lines 161-166): raise `ValueError` when
the layer lacks a `draw` or `priority` attribute, else append it and
re-sort the layer list by priority.  Python `list.sort` is a stable
sort; it is modelled by `List.insertionSort`, which is stable.  The
raised exception is modelled as `Except.error`. -/
def add_layer (layers : List LayerObj) (layer : LayerObj) :
    Except String (List LayerObj) :=
  if ¬ layer.hasDraw ∨ ¬ layer.hasPriority then
    Except.error "Layer must have draw method and priority attribute."
  else
    Except.ok (List.insertionSort layerLE (layers ++ [layer]))

/-- A drawable layer: an object carrying both attributes, tagged with
its insertion index. -/
def mkDrawable (n : Nat) (p : Int) : LayerObj :=
  { oid := n, hasDraw := true, hasPriority := true, priority := p }

/-- Register a sequence of drawable layers by successive `add_layer`
calls, tagging each with its insertion index starting at `n`. -/
def registerAux (n : Nat) (acc : List LayerObj) : List Int → List LayerObj
  | [] => acc
  | p :: ps =>
    registerAux (n + 1)
      (match add_layer acc (mkDrawable n p) with
        | Except.ok l => l
        | Except.error _ => acc) ps

/-- Register drawables with the given priorities, in order, into an
initially empty renderer. -/
def registerAll (ps : List Int) : List LayerObj := registerAux 0 [] ps

/-- The drawables created by `registerAll`, in insertion order. -/
def mkDrawables (n : Nat) : List Int → List LayerObj
  | [] => []
  | p :: ps => mkDrawable n p :: mkDrawables (n + 1) ps

/-- Strict layer order: ascending priority, ties broken by insertion
order (`oid`). -/
def stableBelow (a b : LayerObj) : Prop :=
  a.priority < b.priority ∨ (a.priority = b.priority ∧ a.oid < b.oid)

/-! ### Concrete fixtures for witnesses and counterexamples -/

/-- A concrete 16 × 8 source surface. -/
def testSurface : Surface :=
  { width := 16, height := 8, pixel := fun i j => (i, j, 0, 255) }

/-- The atlas sliced from `testSurface` with tile size 8 (two tiles). -/
def atlas2 : TileSet := TileSet.load testSurface 8

/-- A 3 × 3 grid with a blocking border and an open centre cell. -/
def grid3 : TileMap :=
  { width := 3, height := 3, map_data := [[1, 1, 1], [1, 0, 1], [1, 1, 1]] }

/-! ### C3: out-of-range `set_tile` is rejected -/

/-- C3: `TileMap.set_tile` with an out-of-range coordinate reports the
out-of-bounds condition (warning flag `true`), is not fatal (it
returns), and leaves every cell of the grid unchanged — the returned
map is exactly the input map, so nothing is clamped or wrapped to some
other cell. -/
theorem set_tile_out_of_bounds_rejected (tm : TileMap) (x y k : Int)
    (h : ¬(0 ≤ y ∧ y < (tm.height : Int) ∧ 0 ≤ x ∧ x < (tm.width : Int))) :
    tm.set_tile x y k = (tm, true) := by
  unfold TileMap.set_tile
  rw [if_neg h]

theorem set_tile_out_of_bounds_rejected_witness :
    (TileMap.init 2 2).set_tile 5 0 7 = (TileMap.init 2 2, true) :=
  set_tile_out_of_bounds_rejected (TileMap.init 2 2) 5 0 7 (by decide)

/-! ### C9: a fresh TileMap reads 0 everywhere -/

/-- C9: a freshly constructed `TileMap` of any dimensions has every cell
initialized to tile index 0: `get_tile_index` at any in-bounds
coordinate of a grid with no prior writes returns 0. -/
theorem fresh_tilemap_all_zero (width height : Nat) (x y : Int)
    (hx0 : 0 ≤ x) (hx1 : x < (width : Int)) (hy0 : 0 ≤ y) (hy1 : y < (height : Int)) :
    (TileMap.init width height).get_tile_index x y = 0 := by
  have hy : y.toNat < (List.replicate height (List.replicate width (0 : Int))).length := by
    simp
    omega
  have hx : x.toNat < (List.replicate width (0 : Int)).length := by
    simp
    omega
  unfold TileMap.get_tile_index TileMap.init
  rw [if_pos ⟨hy0, hy1, hx0, hx1⟩]
  show (List.getD (List.replicate height (List.replicate width 0)) y.toNat []).getD x.toNat 0 = 0
  rw [List.getD_eq_getElem _ _ hy, List.getElem_replicate,
    List.getD_eq_getElem _ _ hx, List.getElem_replicate]

theorem fresh_tilemap_all_zero_witness :
    (0 : Int) ≤ 1 ∧ (1 : Int) < 3 ∧ (TileMap.init 3 2).get_tile_index 1 1 = 0 :=
  ⟨by decide, by decide,
    fresh_tilemap_all_zero 3 2 1 1 (by decide) (by decide) (by decide) (by decide)⟩

/-! ### C4: TileSet.get fallback policy -/

/-- C4: for every out-of-range index (`i < 0` or `i ≥ count`),
`TileSet.get i` returns the same tile as `TileSet.get 0` (fallback, no
crash — the function is total); and for an atlas with zero tiles, `get`
returns the fully transparent `tile_size_px × tile_size_px` placeholder
regardless of the index. -/
theorem tileset_get_fallback (t : TileSet) (i : Int) :
    ((i < 0 ∨ (t.tiles.length : Int) ≤ i) → t.get i = t.get 0) ∧
    (t.tiles.length = 0 → t.get i = dummyTile t.tile_size_px) := by
  constructor
  · intro hi
    by_cases hemp : t.tiles.isEmpty
    · simp [TileSet.get, hemp]
    · have hne : ¬ t.tiles = [] := by
        intro h
        rw [h] at hemp
        exact hemp rfl
      have hlen : 0 < t.tiles.length := List.length_pos.mpr hne
      have hno : ¬(0 ≤ i ∧ i < (t.tiles.length : Int)) := by omega
      have h0 : (0 : Int) ≤ 0 ∧ (0 : Int) < (t.tiles.length : Int) := by
        constructor
        · exact le_refl 0
        · exact_mod_cast hlen
      simp [TileSet.get, hemp, hno, h0]
  · intro hzero
    have hnil : t.tiles = [] := List.length_eq_zero.mp hzero
    simp [TileSet.get, hnil]

theorem tileset_get_fallback_witness :
    ((5 : Int) < 0 ∨ (atlas2.tiles.length : Int) ≤ 5) ∧ atlas2.get 5 = atlas2.get 0 :=
  ⟨Or.inr (by decide), (tileset_get_fallback atlas2 5).1 (Or.inr (by decide))⟩

/-! ### C10: add_layer rejects non-drawables -/

/-- C10: `add_layer` rejects (raises, modelled as `Except.error`) any
object lacking a `draw` or `priority` attribute before appending, and
consequently a layer list containing only objects satisfying the
Drawable contract keeps that property under every successful
`add_layer`. -/
theorem add_layer_rejects_non_drawable (layers : List LayerObj) (layer : LayerObj) :
    (¬(layer.hasDraw = true ∧ layer.hasPriority = true) →
      add_layer layers layer =
        Except.error "Layer must have draw method and priority attribute.") ∧
    (∀ out, add_layer layers layer = Except.ok out →
      (∀ y ∈ layers, y.hasDraw = true ∧ y.hasPriority = true) →
      ∀ y ∈ out, y.hasDraw = true ∧ y.hasPriority = true) := by
  constructor
  · intro hbad
    have hcond : ¬ layer.hasDraw = true ∨ ¬ layer.hasPriority = true := by tauto
    unfold add_layer
    rw [if_pos hcond]
  · intro out hout hall y hy
    unfold add_layer at hout
    by_cases hcond : ¬ layer.hasDraw = true ∨ ¬ layer.hasPriority = true
    · rw [if_pos hcond] at hout
      simp at hout
    · rw [if_neg hcond] at hout
      have hlay : layer.hasDraw = true ∧ layer.hasPriority = true := by tauto
      have hout' : out = List.insertionSort layerLE (layers ++ [layer]) := by
        injection hout with h
        exact h.symm
      subst hout'
      have hy' : y ∈ layers ++ [layer] :=
        (List.perm_insertionSort layerLE (layers ++ [layer])).mem_iff.mp hy
      rcases List.mem_append.mp hy' with h | h
      · exact hall y h
      · have : y = layer := List.mem_singleton.mp h
        subst this
        exact hlay

theorem add_layer_rejects_non_drawable_witness :
    add_layer [] { oid := 0, hasDraw := false, hasPriority := true, priority := 0 } =
      Except.error "Layer must have draw method and priority attribute." :=
  (add_layer_rejects_non_drawable []
    { oid := 0, hasDraw := false, hasPriority := true, priority := 0 }).1 (by decide)

/-! ### Collision helper lemmas -/

/-- The per-axis tests of lines 319-338 operate on the already-reverted
position, so the whole resolution step collapses to: keep the proposed
position when no corner hits, else revert both axes. -/
lemma resolveCollision_eq (tm : TileMap) (ts : Nat) (w h px py qx qy : Int) :
    resolveCollision tm ts w h px py qx qy =
      if collidesAt tm ts qx qy w h then (px, py) else (qx, qy) := by
  unfold resolveCollision
  cases hcol : collidesAt tm ts qx qy w h
  · simp [hcol]
  · simp [hcol]

/-- A corner that does not hit lies over an in-grid tile coordinate. -/
lemma cornerHits_false_bounds (tm : TileMap) (ts : Nat) (px py : Int)
    (h : cornerHits tm ts px py = false) :
    0 ≤ px.fdiv (ts : Int) ∧ px.fdiv (ts : Int) < (tm.width : Int) ∧
      0 ≤ py.fdiv (ts : Int) ∧ py.fdiv (ts : Int) < (tm.height : Int) := by
  simp only [cornerHits] at h
  split at h
  · assumption
  · exact absurd h (by simp)

lemma fdiv_nonneg_imp (a ts : Int) (hts : 0 < ts) (h : 0 ≤ a.fdiv ts) : 0 ≤ a := by
  rw [Int.fdiv_eq_ediv _ (le_of_lt hts)] at h
  by_contra hc
  push_neg at hc
  exact absurd h (not_le.mpr (Int.ediv_neg' hc hts))

lemma fdiv_lt_imp (a ts W : Int) (hts : 0 < ts) (h : a.fdiv ts < W) : a < W * ts := by
  rw [Int.fdiv_eq_ediv _ (le_of_lt hts)] at h
  exact (Int.ediv_lt_iff_lt_mul hts).mp h

/-- A collision-free bounding box lies fully inside the pixel footprint
of the grid (which equals the logical screen, line 265). -/
lemma collides_false_in_screen (tm : TileMap) (ts : Nat) (w h x y : Int)
    (hts : 0 < ts) (hsafe : collidesAt tm ts x y w h = false) :
    0 ≤ x ∧ x + w ≤ ((tm.width * ts : Nat) : Int) ∧
      0 ≤ y ∧ y + h ≤ ((tm.height * ts : Nat) : Int) := by
  have hts' : (0 : Int) < (ts : Int) := by exact_mod_cast hts
  rw [collidesAt, corners] at hsafe
  simp only [List.any_cons, List.any_nil, Bool.or_eq_false_iff, Bool.or_false] at hsafe
  obtain ⟨h1, h2, h3, h4⟩ := hsafe
  obtain ⟨h1a, _, h1c, _⟩ := cornerHits_false_bounds tm ts x y h1
  obtain ⟨_, h4b, _, h4d⟩ := cornerHits_false_bounds tm ts (x + w - 1) (y + h - 1) h4
  have hx0 : 0 ≤ x := fdiv_nonneg_imp x (ts : Int) hts' h1a
  have hy0 : 0 ≤ y := fdiv_nonneg_imp y (ts : Int) hts' h1c
  have hxW : x + w - 1 < (tm.width : Int) * (ts : Int) :=
    fdiv_lt_imp (x + w - 1) (ts : Int) (tm.width : Int) hts' h4b
  have hyH : y + h - 1 < (tm.height : Int) * (ts : Int) :=
    fdiv_lt_imp (y + h - 1) (ts : Int) (tm.height : Int) hts' h4d
  refine ⟨hx0, ?_, hy0, ?_⟩
  · push_cast
    omega
  · push_cast
    omega

/-- Clamping is the identity on a position already inside the screen. -/
lemma clampToScreen_id (W H w h x y : Int)
    (h1 : 0 ≤ x) (h2 : x + w ≤ W) (h3 : 0 ≤ y) (h4 : y + h ≤ H) :
    clampToScreen W H w h x y = (x, y) := by
  unfold clampToScreen
  rw [Prod.mk.injEq]
  constructor
  · omega
  · omega

/-! ### C1: no separated-axis sliding -/

/-- C1 counterexample: on `grid3` (blocking border, open centre), tile
size 16, an 8 × 8 entity at `(20, 20)` proposing a diagonal move to
`(26, 22)`: the fully proposed position hits the border on the X side
only — the box at the proposed Y with the reverted X, `(20, 22)`, hits
nothing — so the claimed resolver would end the tick at `(20, 22)`; the
code ends it at `(20, 20)`, reverting the unblocked Y axis as well. -/
theorem no_axis_sliding_cex :
    collidesAt grid3 16 26 22 8 8 = true ∧
    collidesAt grid3 16 20 22 8 8 = false ∧
    updateTick grid3 16 8 8 20 20 26 22 = (20, 20) := by decide

/-- C1 amended: whenever any corner of the fully proposed position hits,
the resolver reverts BOTH axes to the pre-move position (the per-axis
tests of lines 319-338 run on the already-reverted coordinates and never
change them), so the tick ends at the screen-clamped pre-move position;
only when no corner hits does the entity reach the (clamped) proposed
position. -/
theorem collision_reverts_both_axes (tm : TileMap) (ts : Nat) (w h px py qx qy : Int) :
    updateTick tm ts w h px py qx qy =
      if collidesAt tm ts qx qy w h then
        clampToScreen ((tm.width * ts : Nat) : Int) ((tm.height * ts : Nat) : Int) w h px py
      else
        clampToScreen ((tm.width * ts : Nat) : Int) ((tm.height * ts : Nat) : Int) w h qx qy := by
  simp only [updateTick]
  rw [resolveCollision_eq]
  cases hcol : collidesAt tm ts qx qy w h
  · simp [hcol]
  · simp [hcol]

/-! ### C2: collision-safety invariant -/

/-- C2: if the bounding box at the previous position overlaps no
blocking cell and lies within the grid (no corner hits, with the
`right - 1` / `bottom - 1` inclusive-pixel sampling and floor division
by the tile size), then the position returned by collision resolution
plus clamping also has no corner hitting a blocking or off-grid cell. -/
theorem collision_safety_invariant (tm : TileMap) (ts : Nat) (w h px py qx qy : Int)
    (hts : 0 < ts) (hprev : collidesAt tm ts px py w h = false) :
    collidesAt tm ts (updateTick tm ts w h px py qx qy).1
      (updateTick tm ts w h px py qx qy).2 w h = false := by
  simp only [updateTick]
  rw [resolveCollision_eq]
  cases hcol : collidesAt tm ts qx qy w h
  · simp only [hcol, Bool.false_eq_true, if_false]
    obtain ⟨a1, a2, a3, a4⟩ := collides_false_in_screen tm ts w h qx qy hts hcol
    rw [clampToScreen_id _ _ _ _ _ _ a1 a2 a3 a4]
    exact hcol
  · simp only [hcol, if_true]
    obtain ⟨a1, a2, a3, a4⟩ := collides_false_in_screen tm ts w h px py hts hprev
    rw [clampToScreen_id _ _ _ _ _ _ a1 a2 a3 a4]
    exact hprev

theorem collision_safety_invariant_witness :
    0 < 16 ∧ collidesAt grid3 16 20 20 8 8 = false ∧
      collidesAt grid3 16 (updateTick grid3 16 8 8 20 20 100 100).1
        (updateTick grid3 16 8 8 20 20 100 100).2 8 8 = false :=
  ⟨by decide, by decide,
    collision_safety_invariant grid3 16 8 8 20 20 100 100 (by decide) (by decide)⟩

/-! ### C7: screen-edge clamping -/

/-- C7: after collision correction the final position is clamped so the
bounding box stays fully within the logical screen on both axes; in
particular a corrected x beyond `logical_width - w` ends the tick at
exactly `logical_width - w`, and symmetrically at 0 and on the y axis.
The hypotheses say the entity is no larger than the screen. -/
theorem screen_edge_clamping (tm : TileMap) (ts : Nat) (w h px py qx qy : Int)
    (hwW : w ≤ ((tm.width * ts : Nat) : Int))
    (hhH : h ≤ ((tm.height * ts : Nat) : Int)) :
    (0 ≤ (updateTick tm ts w h px py qx qy).1 ∧
        (updateTick tm ts w h px py qx qy).1 + w ≤ ((tm.width * ts : Nat) : Int) ∧
        0 ≤ (updateTick tm ts w h px py qx qy).2 ∧
        (updateTick tm ts w h px py qx qy).2 + h ≤ ((tm.height * ts : Nat) : Int)) ∧
    (((tm.width * ts : Nat) : Int) - w < (resolveCollision tm ts w h px py qx qy).1 →
        (updateTick tm ts w h px py qx qy).1 = ((tm.width * ts : Nat) : Int) - w) ∧
    ((resolveCollision tm ts w h px py qx qy).1 < 0 →
        (updateTick tm ts w h px py qx qy).1 = 0) ∧
    (((tm.height * ts : Nat) : Int) - h < (resolveCollision tm ts w h px py qx qy).2 →
        (updateTick tm ts w h px py qx qy).2 = ((tm.height * ts : Nat) : Int) - h) ∧
    ((resolveCollision tm ts w h px py qx qy).2 < 0 →
        (updateTick tm ts w h px py qx qy).2 = 0) := by
  simp only [updateTick, clampToScreen]
  omega

theorem screen_edge_clamping_witness :
    (8 : Int) ≤ ((grid3.width * 16 : Nat) : Int) ∧
      (8 : Int) ≤ ((grid3.height * 16 : Nat) : Int) ∧
      0 ≤ (updateTick grid3 16 8 8 20 20 100 100).1 ∧
      (updateTick grid3 16 8 8 20 20 100 100).1 + 8 ≤ ((grid3.width * 16 : Nat) : Int) ∧
      0 ≤ (updateTick grid3 16 8 8 20 20 100 100).2 ∧
      (updateTick grid3 16 8 8 20 20 100 100).2 + 8 ≤ ((grid3.height * 16 : Nat) : Int) :=
  ⟨by decide, by decide,
    (screen_edge_clamping grid3 16 8 8 20 20 100 100
      (by decide) (by decide)).1⟩

/-! ### C5: set/get round-trip -/

/-- C5: on a well-formed map (`map_data` holds `height` rows of `width`
entries, the `__init__` invariant), writing index `k` at in-bounds
`(x, y)` via `set_tile` is accepted (no out-of-bounds warning), reading
`(x, y)` back via `get_tile_index` returns `k`, and every other cell
reads exactly as before the write. -/
theorem set_get_round_trip (tm : TileMap) (x y k : Int)
    (hlen : tm.map_data.length = tm.height)
    (hrow : ∀ row ∈ tm.map_data, row.length = tm.width)
    (hx0 : 0 ≤ x) (hx1 : x < (tm.width : Int))
    (hy0 : 0 ≤ y) (hy1 : y < (tm.height : Int)) :
    (tm.set_tile x y k).1.get_tile_index x y = k ∧
    (tm.set_tile x y k).2 = false ∧
    (∀ a b : Int, ¬(a = x ∧ b = y) →
      (tm.set_tile x y k).1.get_tile_index a b = tm.get_tile_index a b) := by
  have hin : 0 ≤ y ∧ y < (tm.height : Int) ∧ 0 ≤ x ∧ x < (tm.width : Int) :=
    ⟨hy0, hy1, hx0, hx1⟩
  have hyl : y.toNat < tm.map_data.length := by omega
  have hrowy : tm.map_data.getD y.toNat [] = tm.map_data[y.toNat] :=
    List.getD_eq_getElem _ _ hyl
  have hrowlen : (tm.map_data[y.toNat]).length = tm.width :=
    hrow _ (List.getElem_mem hyl)
  have hset : tm.set_tile x y k =
      ({ tm with map_data :=
          tm.map_data.set y.toNat ((tm.map_data.getD y.toNat []).set x.toNat k) },
       false) := by
    unfold TileMap.set_tile
    rw [if_pos hin]
  refine ⟨?_, ?_, ?_⟩
  · rw [hset]
    unfold TileMap.get_tile_index
    rw [if_pos hin]
    have h1 : y.toNat <
        (tm.map_data.set y.toNat ((tm.map_data.getD y.toNat []).set x.toNat k)).length := by
      rw [List.length_set]
      exact hyl
    rw [List.getD_eq_getElem _ _ h1, List.getElem_set_self]
    have h2 : x.toNat < ((tm.map_data.getD y.toNat []).set x.toNat k).length := by
      rw [List.length_set, hrowy]
      omega
    rw [List.getD_eq_getElem _ _ h2, List.getElem_set_self]
  · rw [hset]
  · intro a b hne
    rw [hset]
    unfold TileMap.get_tile_index
    by_cases hab : 0 ≤ b ∧ b < (tm.height : Int) ∧ 0 ≤ a ∧ a < (tm.width : Int)
    · rw [if_pos hab, if_pos hab]
      have hbl : b.toNat < tm.map_data.length := by omega
      have hbl' : b.toNat <
          (tm.map_data.set y.toNat ((tm.map_data.getD y.toNat []).set x.toNat k)).length := by
        rw [List.length_set]
        exact hbl
      by_cases hby : b.toNat = y.toNat
      · have hbey : b = y := by omega
        subst hbey
        have hax : ¬ a = x := fun hax => hne ⟨hax, rfl⟩
        have haxn : x.toNat ≠ a.toNat := by omega
        have hal : a.toNat < ((tm.map_data.getD b.toNat []).set x.toNat k).length := by
          rw [List.length_set, hrowy]
          omega
        rw [List.getD_eq_getElem _ _ hbl', List.getElem_set_self,
          List.getD_eq_getElem _ _ hal, List.getElem_set_ne haxn]
        exact (List.getD_eq_getElem _ _ (by rw [hrowy]; omega)).symm
      · rw [List.getD_eq_getElem _ _ hbl', List.getElem_set_ne (fun hc => hby hc.symm),
          List.getD_eq_getElem _ _ hbl]
    · rw [if_neg hab, if_neg hab]

theorem set_get_round_trip_witness :
    (0 : Int) ≤ 1 ∧ (1 : Int) < 2 ∧
      ((TileMap.init 2 2).set_tile 1 0 7).1.get_tile_index 1 0 = 7 ∧
      ((TileMap.init 2 2).set_tile 1 0 7).2 = false ∧
      ((TileMap.init 2 2).set_tile 1 0 7).1.get_tile_index 0 0 =
        (TileMap.init 2 2).get_tile_index 0 0 := by
  have h := set_get_round_trip (TileMap.init 2 2) 1 0 7 (by decide) (by decide)
    (by decide) (by decide) (by decide) (by decide)
  exact ⟨by decide, by decide, h.1, h.2.1, h.2.2 0 0 (by decide)⟩

/-! ### C8 helpers: indexing the row-major double loop -/

lemma flatMap_range_map_length {β : Type} (n m : Nat) (f : Nat → Nat → β) :
    ((List.range n).flatMap (fun i => (List.range m).map (f i))).length = n * m := by
  induction n with
  | zero => simp
  | succ n ih =>
    rw [List.range_succ, List.flatMap_append]
    simp [ih, Nat.succ_mul]

lemma div_mod_between {k n m : Nat} (h1 : n * m ≤ k) (h2 : k < n * m + m) :
    k / m = n ∧ k % m = k - n * m := by
  have hdiv : k / m = n := Nat.div_eq_of_lt_le h1 (by rw [Nat.succ_mul]; exact h2)
  have e := Nat.div_add_mod k m
  rw [hdiv, Nat.mul_comm m n] at e
  exact ⟨hdiv, by omega⟩

lemma flatMap_range_map_getD {β : Type} (n m : Nat) (f : Nat → Nat → β) (d : β) :
    ∀ k, k < n * m →
      ((List.range n).flatMap (fun i => (List.range m).map (f i))).getD k d =
        f (k / m) (k % m) := by
  induction n with
  | zero =>
    intro k hk
    simp at hk
  | succ n ih =>
    intro k hk
    rw [List.range_succ, List.flatMap_append]
    by_cases hcase : k < n * m
    · rw [List.getD_append]
      · exact ih k hcase
      · rw [flatMap_range_map_length]
        exact hcase
    · have hlen : ((List.range n).flatMap (fun i => (List.range m).map (f i))).length = n * m :=
        flatMap_range_map_length n m f
      have hub : k < n * m + m := by
        rw [Nat.succ_mul] at hk
        exact hk
      have hge : n * m ≤ k := Nat.le_of_not_lt hcase
      rw [List.getD_append_right _ _ _ _ (by rw [hlen]; exact hge)]
      rw [hlen]
      have hrw : ([n] : List Nat).flatMap (fun i => (List.range m).map (f i)) =
          (List.range m).map (f n) := by simp
      rw [hrw]
      have hkm : k - n * m < ((List.range m).map (f n)).length := by
        simp
        omega
      rw [List.getD_eq_getElem _ _ hkm, List.getElem_map, List.getElem_range]
      obtain ⟨e1, e2⟩ := div_mod_between hge hub
      rw [e1, e2]

/-! ### C8: atlas slicing -/

/-- C8: for every source surface and tile size ≥ 1, the constructed
atlas has exactly `(width / tileSize) * (height / tileSize)` tiles
(integer floor division, truncating any partial trailing row or
column), sliced in row-major order: tile `k` is the
`tileSize × tileSize` subsurface at column `k % (width / tileSize)` and
row `k / (width / tileSize)`, left-to-right then top-to-bottom. -/
theorem tileset_slicing_row_major (s : Surface) (ts : Nat) (_hts : 1 ≤ ts) :
    (TileSet.load s ts).tiles.length = (s.width / ts) * (s.height / ts) ∧
    ∀ k, k < (TileSet.load s ts).tiles.length →
      (TileSet.load s ts).tiles.getD k (dummyTile ts) =
        s.subsurface ((k % (s.width / ts)) * ts) ((k / (s.width / ts)) * ts) ts ts := by
  have hlen : (TileSet.load s ts).tiles.length = (s.height / ts) * (s.width / ts) := by
    simp only [TileSet.load]
    exact flatMap_range_map_length _ _ _
  constructor
  · rw [hlen, Nat.mul_comm]
  · intro k hk
    rw [hlen] at hk
    simp only [TileSet.load]
    exact flatMap_range_map_getD _ _ _ _ k hk

theorem tileset_slicing_row_major_witness :
    (1 : Nat) ≤ 8 ∧ (TileSet.load testSurface 8).tiles.length = (16 / 8) * (8 / 8) ∧
      1 < (TileSet.load testSurface 8).tiles.length ∧
      (TileSet.load testSurface 8).tiles.getD 1 (dummyTile 8) =
        testSurface.subsurface 8 0 8 8 := by
  have h := tileset_slicing_row_major testSurface 8 (by decide)
  exact ⟨by decide, h.1, by decide, h.2 1 (by decide)⟩

/-! ### C6 helpers: stability of the re-sorted layer list -/

lemma stableBelow_le {a b : LayerObj} (h : stableBelow a b) : a.priority ≤ b.priority := by
  rcases h with h | ⟨h, _⟩
  · exact le_of_lt h
  · exact le_of_eq h

lemma layerLE_iff {a b : LayerObj} (ha : a.hasPriority = true) (hb : b.hasPriority = true) :
    layerLE a b ↔ a.priority ≤ b.priority := by
  unfold layerLE sortKey
  rw [ha, hb]
  simp

lemma orderedInsert_stable (a : LayerObj) (ha : a.hasPriority = true) :
    ∀ (s : List LayerObj), s.Pairwise stableBelow →
      (∀ y ∈ s, y.hasPriority = true) →
      (∀ y ∈ s, a.priority = y.priority → a.oid < y.oid) →
      (List.orderedInsert layerLE a s).Pairwise stableBelow := by
  intro s
  induction s with
  | nil =>
    intro _ _ _
    simp [List.orderedInsert]
  | cons b s ih =>
    intro hp hprio hoid
    have hb : b.hasPriority = true := hprio b (List.mem_cons_self b s)
    by_cases hle : layerLE a b
    · simp only [List.orderedInsert, if_pos hle]
      have hab : a.priority ≤ b.priority := (layerLE_iff ha hb).mp hle
      rw [List.pairwise_cons]
      refine ⟨?_, hp⟩
      intro y hy
      have hay : a.priority ≤ y.priority := by
        rcases List.mem_cons.mp hy with rfl | hys
        · exact hab
        · exact hab.trans (stableBelow_le ((List.pairwise_cons.mp hp).1 y hys))
      rcases lt_or_eq_of_le hay with hlt | heq
      · exact Or.inl hlt
      · exact Or.inr ⟨heq, hoid y hy heq⟩
    · simp only [List.orderedInsert, if_neg hle]
      have hba : b.priority < a.priority := by
        rw [layerLE_iff ha hb] at hle
        omega
      obtain ⟨hbs, hps⟩ := List.pairwise_cons.mp hp
      rw [List.pairwise_cons]
      constructor
      · intro y hy
        rcases (List.mem_orderedInsert layerLE).mp hy with rfl | hys
        · exact Or.inl hba
        · exact hbs y hys
      · exact ih hps (fun y hy => hprio y (List.mem_cons_of_mem b hy))
          (fun y hy => hoid y (List.mem_cons_of_mem b hy))

lemma insertionSort_append_stable :
    ∀ (l : List LayerObj) (x : LayerObj),
      l.Pairwise stableBelow →
      (∀ y ∈ l, y.hasPriority = true) →
      x.hasPriority = true →
      (∀ y ∈ l, y.oid < x.oid) →
      (List.insertionSort layerLE (l ++ [x])).Pairwise stableBelow := by
  intro l
  induction l with
  | nil =>
    intro x _ _ _ _
    simp [List.insertionSort, List.orderedInsert]
  | cons a l ih =>
    intro x hp hprio hx hoid
    rw [List.cons_append]
    simp only [List.insertionSort]
    obtain ⟨hal, hpl⟩ := List.pairwise_cons.mp hp
    have ha : a.hasPriority = true := hprio a (List.mem_cons_self a l)
    apply orderedInsert_stable a ha
    · exact ih x hpl (fun y hy => hprio y (List.mem_cons_of_mem a hy)) hx
        (fun y hy => hoid y (List.mem_cons_of_mem a hy))
    · intro y hy
      rcases List.mem_append.mp
          ((List.perm_insertionSort layerLE (l ++ [x])).mem_iff.mp hy) with h | h
      · exact hprio y (List.mem_cons_of_mem a h)
      · rw [List.mem_singleton.mp h]
        exact hx
    · intro y hy heq
      rcases List.mem_append.mp
          ((List.perm_insertionSort layerLE (l ++ [x])).mem_iff.mp hy) with h | h
      · rcases hal y h with hlt | ⟨_, hoid'⟩
        · omega
        · exact hoid'
      · rw [List.mem_singleton.mp h] at heq ⊢
        exact hoid a (List.mem_cons_self a l)

lemma registerAux_invariant :
    ∀ (ps : List Int) (n : Nat) (acc : List LayerObj),
      acc.Pairwise stableBelow →
      (∀ y ∈ acc, y.hasDraw = true ∧ y.hasPriority = true) →
      (∀ y ∈ acc, y.oid < n) →
      (registerAux n acc ps).Pairwise stableBelow ∧
      (∀ y ∈ registerAux n acc ps, y.hasDraw = true ∧ y.hasPriority = true) ∧
      (registerAux n acc ps).Perm (acc ++ mkDrawables n ps) := by
  intro ps
  induction ps with
  | nil =>
    intro n acc h1 h2 _
    refine ⟨h1, h2, ?_⟩
    simp [registerAux, mkDrawables]
  | cons p ps ih =>
    intro n acc h1 h2 h3
    have hcond : ¬(¬ (mkDrawable n p).hasDraw = true ∨ ¬ (mkDrawable n p).hasPriority = true) := by
      simp [mkDrawable]
    have hstep : add_layer acc (mkDrawable n p) =
        Except.ok (List.insertionSort layerLE (acc ++ [mkDrawable n p])) := by
      unfold add_layer
      rw [if_neg hcond]
    have hreg : registerAux n acc (p :: ps) =
        registerAux (n + 1) (List.insertionSort layerLE (acc ++ [mkDrawable n p])) ps := by
      simp only [registerAux, hstep]
    rw [hreg]
    have hperm : (List.insertionSort layerLE (acc ++ [mkDrawable n p])).Perm
        (acc ++ [mkDrawable n p]) := List.perm_insertionSort _ _
    have g1 : (List.insertionSort layerLE (acc ++ [mkDrawable n p])).Pairwise stableBelow :=
      insertionSort_append_stable acc (mkDrawable n p) h1
        (fun y hy => (h2 y hy).2) rfl h3
    have g2 : ∀ y ∈ List.insertionSort layerLE (acc ++ [mkDrawable n p]),
        y.hasDraw = true ∧ y.hasPriority = true := by
      intro y hy
      rcases List.mem_append.mp (hperm.mem_iff.mp hy) with h | h
      · exact h2 y h
      · rw [List.mem_singleton.mp h]
        exact ⟨rfl, rfl⟩
    have g3 : ∀ y ∈ List.insertionSort layerLE (acc ++ [mkDrawable n p]), y.oid < n + 1 := by
      intro y hy
      rcases List.mem_append.mp (hperm.mem_iff.mp hy) with h | h
      · exact Nat.lt_succ_of_lt (h3 y h)
      · rw [List.mem_singleton.mp h]
        exact Nat.lt_succ_self n
    obtain ⟨r1, r2, r3⟩ := ih (n + 1) (List.insertionSort layerLE (acc ++ [mkDrawable n p]))
      g1 g2 g3
    refine ⟨r1, r2, ?_⟩
    have h5 : (acc ++ [mkDrawable n p]) ++ mkDrawables (n + 1) ps =
        acc ++ mkDrawables n (p :: ps) := by
      rw [List.append_assoc]
      rfl
    exact r3.trans (by rw [← h5]; exact hperm.append_right _)

/-! ### C6: compositor ordering invariant -/

/-- C6: after every sequence of register calls the layer list is a
permutation of the registered drawables sorted in ascending priority
with ties in insertion order (`stableBelow` compares priority first,
then the insertion tag `oid`); in particular registering priorities
`[3, 1, 2]` in that order yields composite order `[1, 2, 3]`, and two
drawables registered with equal priority keep their relative insertion
order. -/
theorem layer_order_invariant :
    (∀ ps : List Int,
        (registerAll ps).Pairwise stableBelow ∧ (registerAll ps).Perm (mkDrawables 0 ps)) ∧
    (registerAll [3, 1, 2]).map LayerObj.priority = [1, 2, 3] ∧
    (registerAll [5, 5]).map LayerObj.oid = [0, 1] := by
  refine ⟨fun ps => ?_, by decide, by decide⟩
  obtain ⟨g1, _, g3⟩ := registerAux_invariant ps 0 [] List.Pairwise.nil (by simp) (by simp)
  refine ⟨g1, ?_⟩
  simpa using g3
